import Mathlib

/-!
Verification of the synchronization/trust core and import helpers of the
MaKleSoft/safe repository against its natural-language specification.

The `Import` namespace is a shallow embedding of
src/packages/ui/src/import.ts.  The remaining namespaces model the core
package (Vault, Invite, Account, App, Server), whose sources are not part
of the repository snapshot; those definitions are modelled from the spec,
as their doc comments state.
-/

namespace Import

/-- Error codes.  The first six are the taxonomy of spec section 6; the code
INVALID_CSV is raised by fromCSV in import.ts (imported from the absent
error.js module); JS_TYPE_ERROR models a raw JavaScript TypeError thrown by
accessing a property of undefined. -/
inductive ErrorCode where
  | NOT_FOUND
  | UNAUTHORIZED
  | INVALID_INVITE
  | INVALID_CREDENTIALS
  | EXPIRED_INVITE
  | CRYPTO_FAILURE
  | INVALID_CSV
  | JS_TYPE_ERROR
deriving DecidableEq, Repr

/-- The error taxonomy listed in spec section 6. -/
def specTaxonomy : List ErrorCode :=
  [ErrorCode.NOT_FOUND, ErrorCode.UNAUTHORIZED, ErrorCode.INVALID_INVITE,
   ErrorCode.INVALID_CREDENTIALS, ErrorCode.EXPIRED_INVITE, ErrorCode.CRYPTO_FAILURE]

/-- JavaScript runtime values, as far as import.ts inspects them: the
unmarshalled value in isFromPadlock is probed with a property access and a
typeof check. -/
inductive TSValue where
  | vNull
  | vUndefined
  | vStr (s : String)
  | vNum (n : Int)
  | vBool (b : Bool)
  | vObj (fields : List (String × TSValue))

/-- JavaScript property access `v.name`: throws a TypeError on null or
undefined, yields undefined for a missing property or on a primitive. -/
def getProp (v : TSValue) (name : String) : Except ErrorCode TSValue :=
  match v with
  | .vNull => .error ErrorCode.JS_TYPE_ERROR
  | .vUndefined => .error ErrorCode.JS_TYPE_ERROR
  | .vObj fields =>
      match fields.lookup name with
      | some w => .ok w
      | none => .ok .vUndefined
  | _ => .ok .vUndefined

/-- JavaScript `typeof v === "string"`. -/
def typeofString (v : TSValue) : Bool :=
  match v with
  | .vStr _ => true
  | _ => false

/-- Embedding of isFromPadlock (import.ts lines 75-83).  The unmarshal
function comes from the external encoding module and may throw, which the
Except result models; the try/catch of the source is the match on that
result.  The source line `return true;` after the first return is
unreachable and has no counterpart. -/
def isFromPadlock (unmarshal : String → Except ErrorCode TSValue)
    (data : String) : Bool :=
  match unmarshal data >>= fun v => getProp v "version" with
  | .ok v => typeofString v
  | .error _ => false

/-- Embedding of isFromLastPass (import.ts lines 162-164):
`data.split("\n")[0] === "url,username,password,extra,name,grouping,fav"`.
JavaScript split never returns an empty array, so index 0 is always a
string; String.splitOn shares that property and headD covers the
impossible-empty case with the same result. -/
def isFromLastPass (data : String) : Bool :=
  (data.splitOn "\n").headD "" == "url,username,password,extra,name,grouping,fav"

/-- Field of a vault item as built by fromTable: `name` is the column name
`colNames[i]`, which is undefined (none) when the row is longer than the
header row. -/
structure TField where
  name : Option String
  value : String
deriving DecidableEq, Repr

/-- Modelled from the spec: createVaultItem lives in the absent data.js
module; per spec section 3 a VaultItem carries a name, an ordered sequence
of fields and a set of tags (the generated fresh id and revision stamp do
not depend on the tabular input and play no part in the import claims, so
they are not modelled).  The name is the raw cell `row[nameColIndex]`,
undefined (none) when the row is too short. -/
structure TVaultItem where
  name : Option String
  fields : List TField
  tags : List String
deriving DecidableEq, Repr

/-- JavaScript `array.indexOf(s)`: the first index of s, or -1. -/
def jsIndexOf (l : List String) (s : String) : Int :=
  match l.findIdx? (fun x => x = s) with
  | some i => (i : Int)
  | none => -1

/-- JavaScript `row[i]` for a possibly negative or out-of-range index:
undefined (none) outside the array. -/
def jsGet (row : List String) (i : Int) : Option String :=
  if i < 0 then none else row.get? i.toNat

/-- The field list built by the loop of fromTable (import.ts lines 39-48):
one field per cell whose index is neither the name column nor the tags
column and whose value is truthy (nonempty). -/
def rowFields (colNames row : List String) (nameIdx tagsIdx : Int) : List TField :=
  row.enum.filterMap (fun p =>
    if (p.1 : Int) = nameIdx ∨ (p.1 : Int) = tagsIdx ∨ p.2 = "" then none
    else some { name := colNames.get? p.1, value := p.2 })

/-- The item built for one row by fromTable (import.ts lines 37-53).
JavaScript `(tags && tags.split(",")) || []` yields [] when the tags cell
is undefined or empty, else the comma-split cell. -/
def rowItem (colNames row : List String) (nameIdx tagsIdx : Int) : TVaultItem :=
  { name := jsGet row nameIdx
  , fields := rowFields colNames row nameIdx tagsIdx
  , tags :=
      match jsGet row tagsIdx with
      | some t => if t = "" then [] else t.splitOn ","
      | none => [] }

/-- The name column index derived from the header row when none was
supplied (import.ts lines 24-27): the position of "name", else 0. -/
def defaultNameIdx (colNames : List String) : Int :=
  if jsIndexOf colNames "name" ≠ -1 then jsIndexOf colNames "name" else 0

/-- The tags column index derived from the header row when none was
supplied (import.ts lines 29-34): the position of "tags", else of
"category", else -1. -/
def defaultTagsIdx (colNames : List String) : Int :=
  if jsIndexOf colNames "tags" = -1 then jsIndexOf colNames "category"
  else jsIndexOf colNames "tags"

/-- Embedding of fromTable (import.ts lines 20-56).  `data[0]` is undefined
when the table is empty; calling indexOf on it — which happens exactly when
the corresponding column index was not supplied — throws a TypeError
(the two error arms; the name-column check runs first, as in the source).
When the table is empty but both indices were supplied, nothing touches the
missing header row and the map over the (empty) remaining rows returns [];
the [] passed for colNames there is never read.  When the header row
exists, an unsupplied index defaults per defaultNameIdx/defaultTagsIdx. -/
def fromTable (data : List (List String))
    (nameColIndex? tagsColIndex? : Option Int) :
    Except ErrorCode (List TVaultItem) :=
  match data.head?, nameColIndex?, tagsColIndex? with
  | none, none, _ => Except.error ErrorCode.JS_TYPE_ERROR
  | none, some _, none => Except.error ErrorCode.JS_TYPE_ERROR
  | none, some n, some t =>
      Except.ok ((data.drop 1).map (fun row => rowItem [] row n t))
  | some colNames, n?, t? =>
      Except.ok ((data.drop 1).map (fun row =>
        rowItem colNames row (n?.getD (defaultNameIdx colNames))
          (t?.getD (defaultTagsIdx colNames))))

/-- Result of the external papaparse parser: a list of parse errors and the
parsed table. -/
structure ParseResult where
  errors : List String
  data : List (List String)

/-- Embedding of fromCSV (import.ts lines 63-70), parameterized by the
external papaparse parser. -/
def fromCSV (parse : String → ParseResult) (data : String)
    (nameColIndex? tagsColIndex? : Option Int) :
    Except ErrorCode (List TVaultItem) :=
  if (parse data).errors.length ≠ 0 then Except.error ErrorCode.INVALID_CSV
  else fromTable (parse data).data nameColIndex? tagsColIndex?

end Import

namespace Sync

/-- Modelled from the spec: member roles of a vault (spec section 3); the
core package sources are absent from the repository snapshot. -/
inductive Role where
  | owner
  | admin
  | member
deriving DecidableEq, Repr

/-- Modelled from the spec: the per-account-id value of a vault membership
map entry (spec sections 3 and 4.1). -/
structure MemberInfo where
  publicKey : String
  role : Role
deriving DecidableEq, Repr

/-- Modelled from the spec: one entry of a revision-stamped collection
(spec sections 3 and 4.1): a payload (for items: name, fields and tags,
which merge wholesale; for members: key and role), the last-modified
revision stamp, and the tombstone flag recording a deletion that must
still be merged. -/
structure Entry (α : Type) where
  payload : α
  revision : Nat
  tombstone : Bool
deriving DecidableEq, Repr

/-- Modelled from the spec: the per-entry conflict rule of the merge
algorithm (spec section 4.1), local entry first.  Equal stamps with equal
tombstone status are a no-op (keep local); the higher revision stamp wins;
a tombstone with revision greater than or equal to the other side's last
update wins over a live edit, so a tombstone wins a revision tie against a
live entry. -/
def mergeEntry (l r : Entry α) : Entry α :=
  if l.revision = r.revision then
    if l.tombstone = r.tombstone then l
    else if l.tombstone then l else r
  else if r.revision < l.revision then l else r

/-- Modelled from the spec: merge of one key of the collection (spec
section 4.1): an entry present on one side only is kept or adopted; one
present on both goes through mergeEntry. -/
def mergeO (l r : Option (Entry α)) : Option (Entry α) :=
  match l, r with
  | none, none => none
  | some e, none => some e
  | none, some e => some e
  | some le, some re => some (mergeEntry le re)

/-- Modelled from the spec: the synchronizable state of one vault replica
(spec section 3): the item map keyed by item id and the membership map
keyed by account id, each entry revision-stamped.  The vault-level revision
counter only stamps fresh local edits and is supplied explicitly to the
mutation operations below. -/
structure VaultState where
  items : String → Option (Entry String)
  members : String → Option (Entry MemberInfo)

/-- Modelled from the spec: the merge algorithm of section 4.1 applied to a
whole replica, key by key, for both the item map and the membership map. -/
def mergeVault (loc rem : VaultState) : VaultState :=
  { items := fun id => mergeO (loc.items id) (rem.items id)
  , members := fun aid => mergeO (loc.members aid) (rem.members aid) }

/-- Modelled from the spec: App.createItem (spec section 4.3) — a local
mutation inserting a fresh live item stamped with the local revision. -/
def createItem (v : VaultState) (id payload : String) (rev : Nat) : VaultState :=
  { v with items := fun i =>
      if i = id then some ⟨payload, rev, false⟩ else v.items i }

/-- Modelled from the spec: App.updateItem (spec section 4.3) — a local
mutation replacing the payload wholesale and bumping the entry's revision
stamp; updating an absent id changes nothing. -/
def updateItem (v : VaultState) (id payload : String) : VaultState :=
  { v with items := fun i =>
      if i = id then
        match v.items id with
        | some e => some ⟨payload, e.revision + 1, false⟩
        | none => none
      else v.items i }

/-- Modelled from the spec: App.deleteItems for one id (spec sections 3 and
4.3) — deletion writes a tombstone whose revision increments past the
deleted entry's stamp, retained so the deletion merges against concurrent
edits. -/
def deleteItem (v : VaultState) (id : String) : VaultState :=
  { v with items := fun i =>
      if i = id then
        match v.items id with
        | some e => some ⟨e.payload, e.revision + 1, true⟩
        | none => none
      else v.items i }

/-- Modelled from the spec: App.getItem — tombstoned entries are deleted
items and are not visible. -/
def getItem (v : VaultState) (id : String) : Option (Entry String) :=
  match v.items id with
  | some e => if e.tombstone then none else some e
  | none => none

/-- Modelled from the spec: the server side of one syncVault call (spec
section 4.4) — the server merges the pushed client snapshot into its
authoritative copy with the same algorithm and persists the result. -/
def syncServer (srv cli : VaultState) : VaultState :=
  mergeVault srv cli

/-- Modelled from the spec: the client side of one syncVault call (spec
sections 4.3 and 4.4) — the client pushes, then merges the returned
authoritative snapshot into its local replica. -/
def syncClient (srv cli : VaultState) : VaultState :=
  mergeVault cli (mergeVault srv cli)

/-- Modelled from the spec: state of the server after replica A's first
sync, starting from server state s and replica states a and b.  The server
serializes concurrent pushes per vault id (spec section 5); the two rounds
of the convergence scenario are taken in the order A, B, A, B. -/
def srv1 (s a : VaultState) : VaultState := syncServer s a

/-- Modelled from the spec: replica A after its first sync. -/
def cliA1 (s a : VaultState) : VaultState := syncClient s a

/-- Modelled from the spec: the server after B's first sync. -/
def srv2 (s a b : VaultState) : VaultState := syncServer (srv1 s a) b

/-- Modelled from the spec: replica B after its first sync. -/
def cliB1 (s a b : VaultState) : VaultState := syncClient (srv1 s a) b

/-- Modelled from the spec: the server after A's second sync. -/
def srv3 (s a b : VaultState) : VaultState := syncServer (srv2 s a b) (cliA1 s a)

/-- Modelled from the spec: replica A after its second sync. -/
def cliA2 (s a b : VaultState) : VaultState := syncClient (srv2 s a b) (cliA1 s a)

/-- Modelled from the spec: the server after B's second sync. -/
def srv4 (s a b : VaultState) : VaultState := syncServer (srv3 s a b) (cliB1 s a b)

/-- Modelled from the spec: replica B after its second sync. -/
def cliB2 (s a b : VaultState) : VaultState := syncClient (srv3 s a b) (cliB1 s a b)

/-- The A,B,A,B sync pipeline acts on each key of the maps independently;
keyS1 through keyB2 are its restriction to one key, starting from the
server value s0 and replica values a0 and b0 at that key.  keyS1 is the
server value after A's first push. -/
def keyS1 (s0 a0 : Option (Entry α)) : Option (Entry α) := mergeO s0 a0

/-- Replica A's value at one key after its first sync. -/
def keyA1 (s0 a0 : Option (Entry α)) : Option (Entry α) := mergeO a0 (keyS1 s0 a0)

/-- The server value at one key after B's first sync. -/
def keyS2 (s0 a0 b0 : Option (Entry α)) : Option (Entry α) := mergeO (keyS1 s0 a0) b0

/-- Replica B's value at one key after its first sync. -/
def keyB1 (s0 a0 b0 : Option (Entry α)) : Option (Entry α) := mergeO b0 (keyS2 s0 a0 b0)

/-- The server value at one key after A's second sync. -/
def keyS3 (s0 a0 b0 : Option (Entry α)) : Option (Entry α) := mergeO (keyS2 s0 a0 b0) (keyA1 s0 a0)

/-- Replica A's value at one key after its second sync. -/
def keyA2 (s0 a0 b0 : Option (Entry α)) : Option (Entry α) := mergeO (keyA1 s0 a0) (keyS3 s0 a0 b0)

/-- The server value at one key after B's second sync. -/
def keyS4 (s0 a0 b0 : Option (Entry α)) : Option (Entry α) := mergeO (keyS3 s0 a0 b0) (keyB1 s0 a0 b0)

/-- Replica B's value at one key after its second sync. -/
def keyB2 (s0 a0 b0 : Option (Entry α)) : Option (Entry α) := mergeO (keyB1 s0 a0 b0) (keyS4 s0 a0 b0)

/-- The empty vault replica: no items, no members. -/
def emptyVault : VaultState :=
  { items := fun _ => none, members := fun _ => none }

/-- A concrete shared vault used to evaluate the sync theorems: two live
items i1 and i2 and no members. -/
def twoItemVault : VaultState :=
  { items := fun id =>
      if id = "i1" then some ⟨"one", 1, false⟩
      else if id = "i2" then some ⟨"two", 2, false⟩
      else none
  , members := fun _ => none }

end Sync

namespace Deleg

/-- Modelled from the spec: the published identity of a sub-vault together
with the delegation proof embedded in it (spec sections 3 and 4.1): the
child's declared identity and the proof signed from the parent's admin key
set.  The proof type σ is abstract, as the cryptographic provider is
external (spec section 6). -/
structure SubVaultInfo (σ : Type) where
  id : String
  delegation : σ

/-- Modelled from the spec: the part of a parent vault that delegation
verification consults — its current admin key set (spec section 4.1). -/
structure ParentVault where
  id : String
  adminKeys : List String
deriving DecidableEq, Repr

/-- Modelled from the spec: creating a sub-vault under a parent embeds a
delegation proof derived from the parent's current admin key set and the
child's identity (spec sections 4.1 and the Create Subvault scenario).
The derivation function stands for the external signing primitive. -/
def createSubVault (derive : List String → String → σ) (parent : ParentVault)
    (childId : String) : SubVaultInfo σ :=
  ⟨childId, derive parent.adminKeys childId⟩

/-- Modelled from the spec: Vault.verifySubVault recomputes the expected
delegation proof from the parent's current admin key set and the child's
declared identity and compares it with the proof embedded in the child's
info (spec section 4.1, fails closed). -/
def verifySubVault [DecidableEq σ] (derive : List String → String → σ)
    (parent : ParentVault) (info : SubVaultInfo σ) : Bool :=
  decide (info.delegation = derive parent.adminKeys info.id)

/-- Modelled from the spec: revoking an admin removes their key from the
parent's admin key set (spec sections 4.1 and 4.3 removeMember). -/
def revokeAdmin (parent : ParentVault) (key : String) : ParentVault :=
  ⟨parent.id, parent.adminKeys.filter (fun k => k ≠ key)⟩

end Deleg

namespace Sync

/-- Modelled from the spec: Vault.isMember — an account is a member when
its membership entry exists and is not tombstoned (spec section 3). -/
def isMember (v : VaultState) (aid : String) : Bool :=
  match v.members aid with
  | some e => !e.tombstone
  | none => false

/-- Modelled from the spec: committing a new member to a vault, as
confirmInvite and addMember do (spec sections 4.2 and 4.3), stamped with
the local revision. -/
def addMember (v : VaultState) (aid : String) (info : MemberInfo) (rev : Nat) : VaultState :=
  { v with members := fun x =>
      if x = aid then some ⟨info, rev, false⟩ else v.members x }

end Sync

namespace Invite

/-- Modelled from the spec: the states of the invite state machine (spec
sections 3 and 4.2). -/
inductive InviteStatus where
  | created
  | sent
  | accepted
  | confirmed
  | expired
deriving DecidableEq, Repr

/-- Modelled from the spec: an invite record (spec sections 3 and 4.2): the
random secret exchanged out of band, the invitee identity and proof
submitted on acceptance, and the machine status.  The proof type π is
abstract as the crypto provider is external (spec section 6). -/
structure InviteState (π : Type) where
  id : String
  vaultId : String
  email : String
  secret : String
  invitee : Option String
  submittedProof : Option π
  status : InviteStatus

/-- Modelled from the spec: App.createInvite (spec sections 4.2-4.3). -/
def createInvite {π : Type} (id vaultId email secret : String) : InviteState π :=
  ⟨id, vaultId, email, secret, none, none, InviteStatus.created⟩

/-- Modelled from the spec: the link carried by the invite-created message
(spec sections 4.2 and 6): clientUrl/invite/vaultId/inviteId?verify=token,
where the token is derived from the secret and the secret itself never
enters the link. -/
def inviteLink {π : Type} (clientUrl : String) (deriveToken : String → String)
    (inv : InviteState π) : String :=
  clientUrl ++ "/invite/" ++ inv.vaultId ++ "/" ++ inv.id ++ "?verify=" ++
    deriveToken inv.secret

/-- Modelled from the spec: App.acceptInvite — the invitee proves knowledge
of the out-of-band secret by submitting a proof derived from the secret
they hold and their identity (spec section 4.2). -/
def acceptInvite {π : Type} (deriveProof : String → String → π)
    (inv : InviteState π) (submittedSecret inviteeId : String) : InviteState π :=
  { inv with
      invitee := some inviteeId,
      submittedProof := some (deriveProof submittedSecret inviteeId),
      status := InviteStatus.accepted }

/-- Modelled from the spec: Invite.verify — the inviting admin recomputes
the expected proof from the stored secret and the invitee's submitted
material and compares (spec section 4.2). -/
def verify {π : Type} [DecidableEq π] (deriveProof : String → String → π)
    (inv : InviteState π) : Bool :=
  match inv.invitee, inv.submittedProof with
  | some aid, some p => decide (p = deriveProof inv.secret aid)
  | _, _ => false

/-- Modelled from the spec: App.confirmInvite — commits the invitee as a
new member of the target vault and cascades the membership to every
currently-trusted sub-vault the inviting admin also grants, then marks the
invite confirmed (spec section 4.2).  The granted sub-vaults are passed by
the caller: which sub-vaults are currently trusted and granted is the
admin's upstream decision (sections 4.1-4.2). -/
def confirmInvite {π : Type} (v : Sync.VaultState) (granted : List Sync.VaultState)
    (inv : InviteState π) (pk : String) (rev : Nat) :
    (Sync.VaultState × List Sync.VaultState) × InviteState π :=
  match inv.invitee with
  | some aid =>
      ((Sync.addMember v aid ⟨pk, Sync.Role.member⟩ rev,
        granted.map (fun g => Sync.addMember g aid ⟨pk, Sync.Role.member⟩ rev)),
       { inv with status := InviteStatus.confirmed })
  | none => ((v, granted), inv)

end Invite

namespace Hier

/-- Modelled from the spec: the membership-relevant data of one vault in
the hierarchy (spec sections 3 and 4.1). -/
structure VaultData where
  id : String
  members : List String
deriving DecidableEq, Repr

mutual

/-- Modelled from the spec: a vault with the sub-vaults reachable from it
through the trust chain (spec section 4.1). -/
inductive VTree where
  | node (data : VaultData) (children : VForest)

/-- A list of sibling sub-vaults. -/
inductive VForest where
  | nil
  | cons (head : VTree) (tail : VForest)

end

mutual

/-- Modelled from the spec: membership removal propagation — removing a
member from a parent vault walks the hierarchy and strips the member from
the parent and every descendant sub-vault (spec section 4.1). -/
def removeMemberTree (aid : String) : VTree → VTree
  | VTree.node d cs =>
      VTree.node ⟨d.id, d.members.filter (fun m => m ≠ aid)⟩ (removeMemberForest aid cs)

/-- Removal propagated through a forest of sub-vaults. -/
def removeMemberForest (aid : String) : VForest → VForest
  | VForest.nil => VForest.nil
  | VForest.cons t ts => VForest.cons (removeMemberTree aid t) (removeMemberForest aid ts)

end

mutual

/-- All vaults of a hierarchy, root first. -/
def vaultsOfTree : VTree → List VaultData
  | VTree.node d cs => d :: vaultsOfForest cs

/-- All vaults of a forest. -/
def vaultsOfForest : VForest → List VaultData
  | VForest.nil => []
  | VForest.cons t ts => vaultsOfTree t ++ vaultsOfForest ts

end

/-- Modelled from the spec: the vault list a replica shows after its next
synchronize — the server refuses requests for vaults the account is no
longer a member of (spec section 4.4), so exactly the vaults whose
membership still lists the account remain visible (Remove Member
scenario). -/
def visibleVaults (vaults : List VaultData) (aid : String) : List VaultData :=
  vaults.filter (fun d => aid ∈ d.members)

end Hier

namespace Session

/-- Modelled from the spec: the account record (spec section 3) with the
session-cached password and decrypted private key, the persistent
encrypted private key, and the ids of the vaults associated with the
account.  The deterministic stub crypto provider of the tests is modelled
by pairing the encryption key with the plaintext. -/
structure Account where
  email : String
  name : String
  password : String
  privateKey : String
  encryptedPrivateKey : String × String
  vaults : List String
deriving DecidableEq, Repr

/-- Modelled from the spec: a vault replica as cached and decrypted by the
App; items are reduced to their ids. -/
structure StoredVault where
  id : String
  items : List String
deriving DecidableEq, Repr

/-- Modelled from the spec: per-device App state (spec section 4.3): at
most one account, an optional session token, the locked flag, the
decrypted main vault when unlocked, and the local storage of vault
replicas encrypted under the master key (stub encryption: key paired with
plaintext). -/
structure AppState where
  account : Option Account
  session : Option String
  locked : Bool
  mainVaultId : String
  mainVault : Option StoredVault
  storage : List (String × (String × StoredVault))
deriving DecidableEq, Repr

/-- Modelled from the spec: App.lock — an immediate transition that blanks
the cached password and private key and makes vault contents inaccessible
(spec section 4.3; the Lock test asserts password and privateKey are
blanked and mainVault is null). -/
def lock (app : AppState) : AppState :=
  { app with
      locked := true,
      account := app.account.map (fun a => { a with password := "", privateKey := "" }),
      mainVault := none }

/-- Modelled from the spec: Storage.get by vault id (spec section 6):
NOT_FOUND when no blob is stored under the id. -/
def storageGet (app : AppState) (vid : String) :
    Except Import.ErrorCode (String × StoredVault) :=
  match app.storage.find? (fun p => p.1 = vid) with
  | some p => Except.ok p.2
  | none => Except.error Import.ErrorCode.NOT_FOUND

/-- Modelled from the spec: App.unlock — re-derives the master key from the
password, recovers the private key from its encrypted form and the main
vault replica from storage, and re-enables access (spec section 4.3); a
wrong password fails with INVALID_CREDENTIALS. -/
def unlock (deriveKey : String → String) (app : AppState) (pwd : String) :
    Except Import.ErrorCode AppState :=
  match app.account with
  | none => Except.error Import.ErrorCode.NOT_FOUND
  | some a =>
      if a.encryptedPrivateKey.1 = deriveKey pwd then
        Except.ok { app with
          locked := false,
          account := some { a with
            password := pwd,
            privateKey := a.encryptedPrivateKey.2 },
          mainVault :=
            match app.storage.find? (fun p => p.1 = app.mainVaultId) with
            | some p => if p.2.1 = deriveKey pwd then some p.2.2 else none
            | none => none }
      else Except.error Import.ErrorCode.INVALID_CREDENTIALS

/-- Modelled from the spec: App.logout — discards the account and session
entirely and clears the local replicas of the vaults associated with the
account (spec sections 4.3 and 7; the Logout test observes storage.get
failing with NOT_FOUND afterwards). -/
def logout (app : AppState) : AppState :=
  { app with
      account := none,
      session := none,
      locked := true,
      mainVault := none,
      storage := app.storage.filter (fun p =>
        match app.account with
        | some a => ¬ p.1 ∈ a.vaults
        | none => true) }

/-- Modelled from the spec: the main vault items visible to the caller;
nothing is accessible while the main vault is not decrypted in memory. -/
def visibleItems (app : AppState) : List String :=
  match app.mainVault with
  | some v => v.items
  | none => []

end Session

-- ===================== THEOREMS =====================

/-- Every field produced by the fromTable row loop has a truthy (nonempty)
value: empty cells are skipped. -/
theorem rowFields_value_ne_empty (colNames row : List String) (nameIdx tagsIdx : Int)
    (f : Import.TField) (hf : f ∈ Import.rowFields colNames row nameIdx tagsIdx) :
    f.value ≠ "" := by
  unfold Import.rowFields at hf
  rcases List.mem_filterMap.mp hf with ⟨p, _, hp⟩
  by_cases hc : (p.1 : Int) = nameIdx ∨ (p.1 : Int) = tagsIdx ∨ p.2 = ""
  · simp [hc] at hp
  · simp only [if_neg hc] at hp
    cases hp
    push_neg at hc
    exact hc.2.2

/-- fromTable never reports the INVALID_CSV error code: its only failure is
the TypeError from reading the missing header row. -/
theorem fromTable_ne_invalid_csv (data : List (List String))
    (n? t? : Option Int) :
    Import.fromTable data n? t? ≠ Except.error Import.ErrorCode.INVALID_CSV := by
  unfold Import.fromTable
  rcases data with _ | ⟨hdr, rest⟩ <;> rcases n? with _ | n <;> rcases t? with _ | t <;> simp

/-- C9: isFromPadlock and isFromLastPass are total boolean predicates of
their input: isFromPadlock confines any unmarshalling failure (modelled by
the Except-valued unmarshal parameter) and returns false on it, and it
returns true exactly when unmarshalling succeeds and the version property
of the result is a string; isFromLastPass always returns a plain boolean. -/
theorem isFromPadlock_isFromLastPass_total
    (unmarshal : String → Except Import.ErrorCode Import.TSValue) (data : String) :
    (∀ e, unmarshal data = Except.error e →
      Import.isFromPadlock unmarshal data = false) ∧
    (Import.isFromPadlock unmarshal data = true ↔
      ∃ v w, unmarshal data = Except.ok v ∧
        Import.getProp v "version" = Except.ok w ∧ Import.typeofString w = true) ∧
    (Import.isFromLastPass data = true ∨ Import.isFromLastPass data = false) := by
  refine ⟨?_, ?_, ?_⟩
  · intro e he
    simp [Import.isFromPadlock, he, Bind.bind, Except.bind]
  · constructor
    · intro htrue
      unfold Import.isFromPadlock at htrue
      cases h : unmarshal data with
      | error e =>
        rw [h] at htrue
        simp [Bind.bind, Except.bind] at htrue
      | ok v =>
        rw [h] at htrue
        cases hg : Import.getProp v "version" with
        | error e =>
          rw [show (Except.ok v >>= fun v => Import.getProp v "version") =
                Import.getProp v "version" from rfl, hg] at htrue
          simp at htrue
        | ok w =>
          rw [show (Except.ok v >>= fun v => Import.getProp v "version") =
                Import.getProp v "version" from rfl, hg] at htrue
          exact ⟨v, w, rfl, hg, htrue⟩
    · rintro ⟨v, w, hv, hw, hs⟩
      simp [Import.isFromPadlock, hv, hw, Bind.bind, Except.bind, hs]
  · cases h : Import.isFromLastPass data
    · exact Or.inr rfl
    · exact Or.inl rfl

/-- Witness for the C9 theorem at a concrete failing unmarshal function and
input. -/
theorem isFromPadlock_isFromLastPass_total_witness :
    Import.isFromPadlock (fun _ => Except.error Import.ErrorCode.CRYPTO_FAILURE) "abc" = false :=
  (isFromPadlock_isFromLastPass_total
    (fun _ => Except.error Import.ErrorCode.CRYPTO_FAILURE) "abc").1
    Import.ErrorCode.CRYPTO_FAILURE rfl

/-- C10 counterexample: a parser outcome with no errors and an empty table
(zero rows, hence zero rows after the header) makes fromCSV throw a raw
TypeError from reading the header row instead of returning the empty item
list the claim requires; the error code is JS_TYPE_ERROR, not INVALID_CSV,
while the parser reported no parse error. -/
theorem fromCSV_empty_table_counterexample :
    Import.fromCSV (fun _ => Import.ParseResult.mk [] []) "" none none =
      Except.error Import.ErrorCode.JS_TYPE_ERROR ∧
    (Import.ParseResult.mk ([] : List String) ([] : List (List String))).errors = [] ∧
    ¬ ∃ items, Import.fromCSV (fun _ => Import.ParseResult.mk [] []) "" none none =
      Except.ok items := by
  refine ⟨rfl, rfl, ?_⟩
  rintro ⟨items, h⟩
  rw [show Import.fromCSV (fun _ => Import.ParseResult.mk [] []) "" none none =
        Except.error Import.ErrorCode.JS_TYPE_ERROR from rfl] at h
  exact Except.noConfusion h

/-- C10 (amended): fromCSV rejects with INVALID_CSV exactly when the parser
reports at least one parse error; when the parser reports none and the
parsed table is nonempty, it returns exactly one item per row after the
header row — each being the rowItem of that row under the derived column
indices, with every field carrying a nonempty value (empty cells excluded);
when the parser reports none and the table is empty, it throws a TypeError.
INVALID_CSV is absent from the spec error taxonomy. -/
theorem fromCSV_characterization
    (parse : String → Import.ParseResult) (input : String) :
    ((Import.fromCSV parse input none none =
        Except.error Import.ErrorCode.INVALID_CSV) ↔ (parse input).errors ≠ []) ∧
    Import.ErrorCode.INVALID_CSV ∉ Import.specTaxonomy ∧
    ((parse input).errors = [] →
      ∀ hdr rest, (parse input).data = hdr :: rest →
        Import.fromCSV parse input none none =
          Except.ok (rest.map (fun row =>
            Import.rowItem hdr row (Import.defaultNameIdx hdr) (Import.defaultTagsIdx hdr))) ∧
        ∀ items, Import.fromCSV parse input none none = Except.ok items →
          items.length = rest.length ∧
          ∀ it ∈ items, ∀ f ∈ it.fields, f.value ≠ "") ∧
    ((parse input).errors = [] → (parse input).data = [] →
      Import.fromCSV parse input none none =
        Except.error Import.ErrorCode.JS_TYPE_ERROR) := by
  refine ⟨?_, by simp [Import.specTaxonomy], ?_, ?_⟩
  · unfold Import.fromCSV
    by_cases he : (parse input).errors = []
    · rw [if_neg (by simp [he])]
      constructor
      · intro h
        exact absurd h (fromTable_ne_invalid_csv _ _ _)
      · intro hne
        exact absurd he hne
    · rw [if_pos (fun h0 => he (List.length_eq_zero.mp h0))]
      simp [he]
  · intro he hdr rest hdata
    have hres : Import.fromCSV parse input none none =
        Except.ok (rest.map (fun row =>
          Import.rowItem hdr row (Import.defaultNameIdx hdr) (Import.defaultTagsIdx hdr))) := by
      unfold Import.fromCSV
      rw [if_neg (by simp [he])]
      unfold Import.fromTable
      rw [hdata]
      rfl
    refine ⟨hres, ?_⟩
    intro items hitems
    rw [hres] at hitems
    cases hitems
    constructor
    · simp
    · intro it hit f hf
      rcases List.mem_map.mp hit with ⟨row, _, hrow⟩
      subst hrow
      exact rowFields_value_ne_empty _ _ _ _ f hf
  · intro he hdata
    unfold Import.fromCSV
    rw [if_neg (by simp [he])]
    unfold Import.fromTable
    rw [hdata]
    rfl

/-- Witness for the C10 amended theorem at a concrete parser and input:
a one-error parse yields INVALID_CSV, and a clean two-row parse yields one
item for the single data row. -/
theorem fromCSV_characterization_witness :
    Import.fromCSV (fun _ => Import.ParseResult.mk ["bad"] []) "x" none none =
      Except.error Import.ErrorCode.INVALID_CSV ∧
    Import.fromCSV (fun _ => Import.ParseResult.mk []
        [["name", "url"], ["acct", "https://a"]]) "y" none none =
      Except.ok [Import.rowItem ["name", "url"] ["acct", "https://a"]
        (Import.defaultNameIdx ["name", "url"]) (Import.defaultTagsIdx ["name", "url"])] := by
  constructor
  · exact ((fromCSV_characterization (fun _ => Import.ParseResult.mk ["bad"] []) "x").1).mpr
      (by simp)
  · exact (((fromCSV_characterization (fun _ => Import.ParseResult.mk []
        [["name", "url"], ["acct", "https://a"]]) "y").2.2.1) rfl
        ["name", "url"] [["acct", "https://a"]] rfl).1

/-- Merging a revision-stamped entry with itself is a no-op. -/
theorem mergeEntry_self {α : Type} (e : Sync.Entry α) : Sync.mergeEntry e e = e := by
  simp [Sync.mergeEntry]

/-- Merging a key value with itself is a no-op: applying the same remote
snapshot twice is idempotent at every key. -/
theorem mergeO_self {α : Type} (x : Option (Sync.Entry α)) : Sync.mergeO x x = x := by
  cases x <;> simp [Sync.mergeO, mergeEntry_self]

/-- When the remote entry carries the strictly higher revision stamp, it
wins the per-entry merge. -/
theorem mergeEntry_right_gt {α : Type} {l r : Sync.Entry α}
    (h : l.revision < r.revision) : Sync.mergeEntry l r = r := by
  unfold Sync.mergeEntry
  rw [if_neg (Nat.ne_of_lt h), if_neg (Nat.lt_asymm h)]

/-- When the local entry carries the strictly higher revision stamp, it
wins the per-entry merge. -/
theorem mergeEntry_left_gt {α : Type} {l r : Sync.Entry α}
    (h : r.revision < l.revision) : Sync.mergeEntry l r = l := by
  unfold Sync.mergeEntry
  rw [if_neg (Ne.symm (Nat.ne_of_lt h)), if_pos h]

/-- A key at which server and both replicas hold the same value is left
unchanged by the whole A,B,A,B pipeline on both sides. -/
theorem key_all_eq {α : Type} (v : Option (Sync.Entry α)) :
    Sync.keyA2 v v v = v ∧ Sync.keyB2 v v v = v := by
  constructor <;>
    simp [Sync.keyA2, Sync.keyB2, Sync.keyS4, Sync.keyS3, Sync.keyB1, Sync.keyS2,
      Sync.keyA1, Sync.keyS1, mergeO_self]

/-- A key fresh on replica A only propagates to both replicas through the
pipeline. -/
theorem key_fresh_A {α : Type} (e : Sync.Entry α) :
    Sync.keyA2 none (some e) none = some e ∧ Sync.keyB2 none (some e) none = some e := by
  constructor <;>
    simp [Sync.keyA2, Sync.keyB2, Sync.keyS4, Sync.keyS3, Sync.keyB1, Sync.keyS2,
      Sync.keyA1, Sync.keyS1, Sync.mergeO, mergeEntry_self]

/-- A key fresh on replica B only propagates to both replicas through the
pipeline. -/
theorem key_fresh_B {α : Type} (e : Sync.Entry α) :
    Sync.keyA2 none none (some e) = some e ∧ Sync.keyB2 none none (some e) = some e := by
  constructor <;>
    simp [Sync.keyA2, Sync.keyB2, Sync.keyS4, Sync.keyS3, Sync.keyB1, Sync.keyS2,
      Sync.keyA1, Sync.keyS1, Sync.mergeO, mergeEntry_self]

/-- A key updated on replica A to a strictly higher revision than the value
held by the server and replica B converges to the updated entry on both
sides. -/
theorem key_update {α : Type} (o n : Sync.Entry α) (h : o.revision < n.revision) :
    Sync.keyA2 (some o) (some n) (some o) = some n ∧
    Sync.keyB2 (some o) (some n) (some o) = some n := by
  have e1 : Sync.mergeEntry o n = n := mergeEntry_right_gt h
  have e2 : Sync.mergeEntry n o = n := mergeEntry_left_gt h
  constructor <;>
    simp [Sync.keyA2, Sync.keyB2, Sync.keyS4, Sync.keyS3, Sync.keyB1, Sync.keyS2,
      Sync.keyA1, Sync.keyS1, Sync.mergeO, mergeEntry_self, e1, e2]

/-- A key tombstoned on replica B at a strictly higher revision than the
value held by the server and replica A converges to the tombstone on both
sides. -/
theorem key_delete {α : Type} (o t : Sync.Entry α) (h : o.revision < t.revision) :
    Sync.keyA2 (some o) (some o) (some t) = some t ∧
    Sync.keyB2 (some o) (some o) (some t) = some t := by
  have e1 : Sync.mergeEntry o t = t := mergeEntry_right_gt h
  have e2 : Sync.mergeEntry t o = t := mergeEntry_left_gt h
  constructor <;>
    simp [Sync.keyA2, Sync.keyB2, Sync.keyS4, Sync.keyS3, Sync.keyB1, Sync.keyS2,
      Sync.keyA1, Sync.keyS1, Sync.mergeO, mergeEntry_self, e1, e2]

/-- The item map of replica A after the two sync rounds is the key-wise
pipeline applied to the initial item maps. -/
theorem cliA2_items (s a b : Sync.VaultState) (id : String) :
    (Sync.cliA2 s a b).items id = Sync.keyA2 (s.items id) (a.items id) (b.items id) := rfl

/-- The item map of replica B after the two sync rounds is the key-wise
pipeline applied to the initial item maps. -/
theorem cliB2_items (s a b : Sync.VaultState) (id : String) :
    (Sync.cliB2 s a b).items id = Sync.keyB2 (s.items id) (a.items id) (b.items id) := rfl

/-- The membership map of replica A after the two sync rounds is the
key-wise pipeline applied to the initial membership maps. -/
theorem cliA2_members (s a b : Sync.VaultState) (aid : String) :
    (Sync.cliA2 s a b).members aid = Sync.keyA2 (s.members aid) (a.members aid) (b.members aid) := rfl

/-- The membership map of replica B after the two sync rounds is the
key-wise pipeline applied to the initial membership maps. -/
theorem cliB2_members (s a b : Sync.VaultState) (aid : String) :
    (Sync.cliB2 s a b).members aid = Sync.keyB2 (s.members aid) (a.members aid) (b.members aid) := rfl

/-- C1: two replicas of the same vault that each create a distinct fresh
item and then each push to and pull from the server twice (rounds A, B, A,
B) end with identical item maps and identical membership maps, each
containing both created items. -/
theorem convergence_two_replicas_two_rounds
    (base : Sync.VaultState) (i1 i2 p1 p2 : String) (r1 r2 : Nat)
    (hne : i1 ≠ i2) (h1 : base.items i1 = none) (h2 : base.items i2 = none) :
    (∀ id, (Sync.cliA2 base (Sync.createItem base i1 p1 r1) (Sync.createItem base i2 p2 r2)).items id =
           (Sync.cliB2 base (Sync.createItem base i1 p1 r1) (Sync.createItem base i2 p2 r2)).items id) ∧
    (∀ aid, (Sync.cliA2 base (Sync.createItem base i1 p1 r1) (Sync.createItem base i2 p2 r2)).members aid =
            (Sync.cliB2 base (Sync.createItem base i1 p1 r1) (Sync.createItem base i2 p2 r2)).members aid) ∧
    (Sync.cliA2 base (Sync.createItem base i1 p1 r1) (Sync.createItem base i2 p2 r2)).items i1 =
      some ⟨p1, r1, false⟩ ∧
    (Sync.cliA2 base (Sync.createItem base i1 p1 r1) (Sync.createItem base i2 p2 r2)).items i2 =
      some ⟨p2, r2, false⟩ ∧
    (Sync.cliB2 base (Sync.createItem base i1 p1 r1) (Sync.createItem base i2 p2 r2)).items i1 =
      some ⟨p1, r1, false⟩ ∧
    (Sync.cliB2 base (Sync.createItem base i1 p1 r1) (Sync.createItem base i2 p2 r2)).items i2 =
      some ⟨p2, r2, false⟩ := by
  refine ⟨?_, ?_, ?_, ?_, ?_, ?_⟩
  · intro id
    rw [cliA2_items, cliB2_items]
    by_cases e1 : id = i1
    · subst e1
      simp only [Sync.createItem, if_true, eq_self_iff_true, if_neg hne, h1]
      rw [(key_fresh_A _).1, (key_fresh_A _).2]
    · by_cases e2 : id = i2
      · subst e2
        simp only [Sync.createItem, if_true, eq_self_iff_true, if_neg e1, h2]
        rw [(key_fresh_B _).1, (key_fresh_B _).2]
      · simp only [Sync.createItem, if_neg e1, if_neg e2]
        rw [(key_all_eq _).1, (key_all_eq _).2]
  · intro aid
    rw [cliA2_members, cliB2_members]
    show Sync.keyA2 (base.members aid) (base.members aid) (base.members aid) =
         Sync.keyB2 (base.members aid) (base.members aid) (base.members aid)
    rw [(key_all_eq _).1, (key_all_eq _).2]
  · rw [cliA2_items]
    simp only [Sync.createItem, if_true, eq_self_iff_true, if_neg hne, h1]
    exact (key_fresh_A _).1
  · rw [cliA2_items]
    simp only [Sync.createItem, if_true, eq_self_iff_true, if_neg (Ne.symm hne), h2]
    exact (key_fresh_B _).1
  · rw [cliB2_items]
    simp only [Sync.createItem, if_true, eq_self_iff_true, if_neg hne, h1]
    exact (key_fresh_A _).2
  · rw [cliB2_items]
    simp only [Sync.createItem, if_true, eq_self_iff_true, if_neg (Ne.symm hne), h2]
    exact (key_fresh_B _).2

/-- Witness for the C1 theorem: starting from the empty shared vault, both
replicas end up holding both concretely created items. -/
theorem convergence_two_replicas_two_rounds_witness :
    (Sync.cliA2 Sync.emptyVault
      (Sync.createItem Sync.emptyVault "i1" "one" 1)
      (Sync.createItem Sync.emptyVault "i2" "two" 1)).items "i1" = some ⟨"one", 1, false⟩ ∧
    (Sync.cliB2 Sync.emptyVault
      (Sync.createItem Sync.emptyVault "i1" "one" 1)
      (Sync.createItem Sync.emptyVault "i2" "two" 1)).items "i2" = some ⟨"two", 1, false⟩ := by
  have h := convergence_two_replicas_two_rounds Sync.emptyVault "i1" "i2" "one" "two" 1 1
    (by decide) rfl rfl
  exact ⟨h.2.2.1, h.2.2.2.2.2⟩

/-- C2: the per-entry merge rules — a live edit with strictly greater
revision beats a tombstone, a tombstone with greater-or-equal revision
beats a live edit — and the concurrent-edit scenario: replica A updates
item i1 and creates a fresh item i3 while replica B tombstones item i2;
after both sync twice, both replicas agree everywhere, i1 carries the edit
at revision r1+1, i2 is no longer visible, and i3 is visible on both. -/
theorem delete_vs_update_convergence
    (base : Sync.VaultState) (i1 i2 i3 p1 p1' p2 p3 : String) (r1 r2 r3 : Nat)
    (h12 : i1 ≠ i2) (h13 : i1 ≠ i3) (h23 : i2 ≠ i3)
    (h1 : base.items i1 = some ⟨p1, r1, false⟩)
    (h2 : base.items i2 = some ⟨p2, r2, false⟩)
    (h3 : base.items i3 = none) :
    (∀ l r : Sync.Entry String, l.tombstone = false → r.tombstone = true →
      r.revision < l.revision → Sync.mergeEntry l r = l ∧ Sync.mergeEntry r l = l) ∧
    (∀ l r : Sync.Entry String, l.tombstone = false → r.tombstone = true →
      l.revision ≤ r.revision → Sync.mergeEntry l r = r ∧ Sync.mergeEntry r l = r) ∧
    (∀ id, (Sync.cliA2 base (Sync.createItem (Sync.updateItem base i1 p1') i3 p3 r3)
              (Sync.deleteItem base i2)).items id =
           (Sync.cliB2 base (Sync.createItem (Sync.updateItem base i1 p1') i3 p3 r3)
              (Sync.deleteItem base i2)).items id) ∧
    (Sync.cliA2 base (Sync.createItem (Sync.updateItem base i1 p1') i3 p3 r3)
        (Sync.deleteItem base i2)).items i1 = some ⟨p1', r1 + 1, false⟩ ∧
    Sync.getItem (Sync.cliA2 base (Sync.createItem (Sync.updateItem base i1 p1') i3 p3 r3)
        (Sync.deleteItem base i2)) i2 = none ∧
    Sync.getItem (Sync.cliB2 base (Sync.createItem (Sync.updateItem base i1 p1') i3 p3 r3)
        (Sync.deleteItem base i2)) i2 = none ∧
    Sync.getItem (Sync.cliA2 base (Sync.createItem (Sync.updateItem base i1 p1') i3 p3 r3)
        (Sync.deleteItem base i2)) i3 = some ⟨p3, r3, false⟩ ∧
    Sync.getItem (Sync.cliB2 base (Sync.createItem (Sync.updateItem base i1 p1') i3 p3 r3)
        (Sync.deleteItem base i2)) i3 = some ⟨p3, r3, false⟩ := by
  have hA1 : (Sync.cliA2 base (Sync.createItem (Sync.updateItem base i1 p1') i3 p3 r3)
      (Sync.deleteItem base i2)).items i1 = some ⟨p1', r1 + 1, false⟩ := by
    rw [cliA2_items]
    simp [Sync.createItem, Sync.updateItem, Sync.deleteItem, h13, h12, h1]
    exact (key_update ⟨p1, r1, false⟩ ⟨p1', r1 + 1, false⟩ (Nat.lt_succ_self r1)).1
  have hA2i2 : (Sync.cliA2 base (Sync.createItem (Sync.updateItem base i1 p1') i3 p3 r3)
      (Sync.deleteItem base i2)).items i2 = some ⟨p2, r2 + 1, true⟩ := by
    rw [cliA2_items]
    simp [Sync.createItem, Sync.updateItem, Sync.deleteItem, h23, Ne.symm h12, h2]
    exact (key_delete ⟨p2, r2, false⟩ ⟨p2, r2 + 1, true⟩ (Nat.lt_succ_self r2)).1
  have hB2i2 : (Sync.cliB2 base (Sync.createItem (Sync.updateItem base i1 p1') i3 p3 r3)
      (Sync.deleteItem base i2)).items i2 = some ⟨p2, r2 + 1, true⟩ := by
    rw [cliB2_items]
    simp [Sync.createItem, Sync.updateItem, Sync.deleteItem, h23, Ne.symm h12, h2]
    exact (key_delete ⟨p2, r2, false⟩ ⟨p2, r2 + 1, true⟩ (Nat.lt_succ_self r2)).2
  have hA2i3 : (Sync.cliA2 base (Sync.createItem (Sync.updateItem base i1 p1') i3 p3 r3)
      (Sync.deleteItem base i2)).items i3 = some ⟨p3, r3, false⟩ := by
    rw [cliA2_items]
    simp [Sync.createItem, Sync.updateItem, Sync.deleteItem, Ne.symm h23, h3]
    exact (key_fresh_A _).1
  have hB2i3 : (Sync.cliB2 base (Sync.createItem (Sync.updateItem base i1 p1') i3 p3 r3)
      (Sync.deleteItem base i2)).items i3 = some ⟨p3, r3, false⟩ := by
    rw [cliB2_items]
    simp [Sync.createItem, Sync.updateItem, Sync.deleteItem, Ne.symm h23, h3]
    exact (key_fresh_A _).2
  refine ⟨?_, ?_, ?_, hA1, ?_, ?_, ?_, ?_⟩
  · intro l r _ _ hlt
    exact ⟨mergeEntry_left_gt hlt, mergeEntry_right_gt hlt⟩
  · intro l r hl hr hle
    rcases Nat.lt_or_ge l.revision r.revision with hlt | hge
    · exact ⟨mergeEntry_right_gt hlt, mergeEntry_left_gt hlt⟩
    · have heq : l.revision = r.revision := Nat.le_antisymm hle hge
      constructor
      · unfold Sync.mergeEntry
        rw [if_pos heq, hl, hr]
        simp
      · unfold Sync.mergeEntry
        rw [if_pos heq.symm, hr, hl]
        simp
  · intro id
    rw [cliA2_items, cliB2_items]
    by_cases e1 : id = i1
    · subst e1
      simp [Sync.createItem, Sync.updateItem, Sync.deleteItem, h13, h12, h1]
      rw [(key_update ⟨p1, r1, false⟩ ⟨p1', r1 + 1, false⟩ (Nat.lt_succ_self r1)).1,
          (key_update ⟨p1, r1, false⟩ ⟨p1', r1 + 1, false⟩ (Nat.lt_succ_self r1)).2]
    · by_cases e2 : id = i2
      · subst e2
        simp [Sync.createItem, Sync.updateItem, Sync.deleteItem, h23, e1, h2]
        rw [(key_delete ⟨p2, r2, false⟩ ⟨p2, r2 + 1, true⟩ (Nat.lt_succ_self r2)).1,
            (key_delete ⟨p2, r2, false⟩ ⟨p2, r2 + 1, true⟩ (Nat.lt_succ_self r2)).2]
      · by_cases e3 : id = i3
        · subst e3
          simp [Sync.createItem, Sync.updateItem, Sync.deleteItem, e2, h3]
          rw [(key_fresh_A _).1, (key_fresh_A _).2]
        · simp [Sync.createItem, Sync.updateItem, Sync.deleteItem, e1, e2, e3]
          rw [(key_all_eq _).1, (key_all_eq _).2]
  · simp [Sync.getItem, hA2i2]
  · simp [Sync.getItem, hB2i2]
  · simp [Sync.getItem, hA2i3]
  · simp [Sync.getItem, hB2i3]

/-- Witness for the C2 theorem on the concrete two-item vault: after the
concurrent edits and two sync rounds, the deleted item is invisible and the
edited item carries the edit on replica A. -/
theorem delete_vs_update_convergence_witness :
    Sync.getItem (Sync.cliA2 Sync.twoItemVault
      (Sync.createItem (Sync.updateItem Sync.twoItemVault "i1" "edited") "i3" "three" 1)
      (Sync.deleteItem Sync.twoItemVault "i2")) "i2" = none ∧
    (Sync.cliA2 Sync.twoItemVault
      (Sync.createItem (Sync.updateItem Sync.twoItemVault "i1" "edited") "i3" "three" 1)
      (Sync.deleteItem Sync.twoItemVault "i2")).items "i1" = some ⟨"edited", 2, false⟩ := by
  have h := delete_vs_update_convergence Sync.twoItemVault "i1" "i2" "i3" "one" "edited"
    "two" "three" 1 2 1 (by decide) (by decide) (by decide) (by decide) (by decide) (by decide)
  exact ⟨h.2.2.2.2.1, h.2.2.2.1⟩

/-- Removing a present element by filtering changes the list. -/
theorem filter_ne_of_mem {l : List String} {key : String} (h : key ∈ l) :
    l.filter (fun k => k ≠ key) ≠ l := by
  intro heq
  have hk : key ∈ l.filter (fun k => k ≠ key) := by
    rw [heq]
    exact h
  rcases List.mem_filter.mp hk with ⟨_, hp⟩
  simp at hp

/-- C5: verifySubVault succeeds exactly when the delegation embedded in the
child info equals the proof recomputed from the parent's current admin key
set and the child's declared identity; it accepts a freshly created
sub-vault, and it rejects that same delegation after the signing admin is
revoked from the parent, provided the derivation separates distinct admin
key sets (collision-freeness of the external signing primitive). -/
theorem verifySubVault_characterization {σ : Type} [DecidableEq σ]
    (derive : List String → String → σ) (parent : Deleg.ParentVault)
    (childId adminKey : String)
    (hinj : ∀ s1 s2 : List String, derive s1 childId = derive s2 childId → s1 = s2)
    (hmem : adminKey ∈ parent.adminKeys) :
    (∀ info : Deleg.SubVaultInfo σ, Deleg.verifySubVault derive parent info = true ↔
      info.delegation = derive parent.adminKeys info.id) ∧
    Deleg.verifySubVault derive parent (Deleg.createSubVault derive parent childId) = true ∧
    Deleg.verifySubVault derive (Deleg.revokeAdmin parent adminKey)
      (Deleg.createSubVault derive parent childId) = false := by
  refine ⟨?_, ?_, ?_⟩
  · intro info
    unfold Deleg.verifySubVault
    exact decide_eq_true_iff
  · unfold Deleg.verifySubVault Deleg.createSubVault
    simp
  · unfold Deleg.verifySubVault Deleg.createSubVault Deleg.revokeAdmin
    apply decide_eq_false
    intro heq
    exact filter_ne_of_mem hmem (hinj _ _ heq).symm

/-- Witness for the C5 theorem with the transparent pairing derivation (the
deterministic stub of the external crypto provider): the delegation of a
fresh sub-vault verifies, and stops verifying after the signing admin "a"
is revoked. -/
theorem verifySubVault_characterization_witness :
    Deleg.verifySubVault (fun (s : List String) (c : String) => (s, c))
      ⟨"p", ["a", "b"]⟩
      (Deleg.createSubVault (fun (s : List String) (c : String) => (s, c))
        ⟨"p", ["a", "b"]⟩ "child") = true ∧
    Deleg.verifySubVault (fun (s : List String) (c : String) => (s, c))
      (Deleg.revokeAdmin ⟨"p", ["a", "b"]⟩ "a")
      (Deleg.createSubVault (fun (s : List String) (c : String) => (s, c))
        ⟨"p", ["a", "b"]⟩ "child") = false := by
  have h := verifySubVault_characterization (fun (s : List String) (c : String) => (s, c))
    ⟨"p", ["a", "b"]⟩ "child" "a"
    (fun s1 s2 hh => congrArg Prod.fst hh) (by decide)
  exact ⟨h.2.1, h.2.2⟩

/-- C3: the invite-created message's link is exactly
clientUrl/invite/vaultId/inviteId?verify=token with the token derived from
the secret; the link depends on the secret only through that token (two
invites whose secrets derive the same token produce the same link), and an
acceptance made from a guessed secret different from the out-of-band
secret never passes verify, provided the proof derivation separates
distinct secrets for the submitting identity. -/
theorem invite_secret_confinement {π : Type} [DecidableEq π]
    (clientUrl : String) (deriveToken : String → String)
    (deriveProof : String → String → π)
    (inv inv2 : Invite.InviteState π) (guess inviteeId : String) :
    Invite.inviteLink clientUrl deriveToken inv =
      clientUrl ++ "/invite/" ++ inv.vaultId ++ "/" ++ inv.id ++ "?verify=" ++
        deriveToken inv.secret ∧
    (inv.id = inv2.id → inv.vaultId = inv2.vaultId →
      deriveToken inv.secret = deriveToken inv2.secret →
      Invite.inviteLink clientUrl deriveToken inv =
        Invite.inviteLink clientUrl deriveToken inv2) ∧
    ((∀ s1 s2 : String, deriveProof s1 inviteeId = deriveProof s2 inviteeId → s1 = s2) →
      guess ≠ inv.secret →
      Invite.verify deriveProof
        (Invite.acceptInvite deriveProof inv guess inviteeId) = false) := by
  refine ⟨rfl, ?_, ?_⟩
  · intro hid hvid htok
    unfold Invite.inviteLink
    rw [hid, hvid, htok]
  · intro hinj hne
    show decide (deriveProof guess inviteeId = deriveProof inv.secret inviteeId) = false
    apply decide_eq_false
    intro heq
    exact hne (hinj _ _ heq)

/-- Witness for the C3 theorem with the transparent pairing proof
derivation: a wrong guess at the secret fails verify. -/
theorem invite_secret_confinement_witness :
    Invite.verify (fun (s m : String) => (s, m))
      (Invite.acceptInvite (fun (s m : String) => (s, m))
        (Invite.createInvite "inv1" "v1" "max@mustermann.com" "topsecret")
        "guessed" "acct2") = false := by
  exact (invite_secret_confinement "https://padloc.app" (fun s => s ++ "-token")
    (fun (s m : String) => (s, m))
    (Invite.createInvite "inv1" "v1" "max@mustermann.com" "topsecret")
    (Invite.createInvite "inv1" "v1" "max@mustermann.com" "topsecret")
    "guessed" "acct2").2.2 (fun s1 s2 hh => congrArg Prod.fst hh) (by decide)

/-- Committing a member makes them a live member of that vault. -/
theorem isMember_addMember (v : Sync.VaultState) (aid : String)
    (info : Sync.MemberInfo) (rev : Nat) :
    Sync.isMember (Sync.addMember v aid info rev) aid = true := by
  simp [Sync.isMember, Sync.addMember]

/-- A replica with no local copy that syncs a vault adopts the server's
item map key for key. -/
theorem syncClient_emptyVault_items (v : Sync.VaultState) (id : String) :
    (Sync.syncClient v Sync.emptyVault).items id = v.items id := by
  show Sync.mergeO none (Sync.mergeO (v.items id) none) = v.items id
  cases v.items id <;> simp [Sync.mergeO]

/-- A replica with no local copy that syncs a vault adopts the server's
membership map key for key. -/
theorem syncClient_emptyVault_members (v : Sync.VaultState) (aid : String) :
    (Sync.syncClient v Sync.emptyVault).members aid = v.members aid := by
  show Sync.mergeO none (Sync.mergeO (v.members aid) none) = v.members aid
  cases v.members aid <;> simp [Sync.mergeO]

/-- Syncing from an empty replica preserves membership. -/
theorem isMember_syncClient_emptyVault (v : Sync.VaultState) (aid : String) :
    Sync.isMember (Sync.syncClient v Sync.emptyVault) aid = Sync.isMember v aid := by
  unfold Sync.isMember
  rw [syncClient_emptyVault_members]

/-- C6: accepting with the correct out-of-band secret makes the admin's
verify succeed; confirmInvite marks the invite confirmed and commits the
invitee as a member of the target vault and of every granted sub-vault;
and the invitee's replica after its next sync holds exactly the target
vault's items and shows the membership in the target vault and in each
granted sub-vault. -/
theorem accept_confirm_invite_membership {π : Type} [DecidableEq π]
    (deriveProof : String → String → π)
    (inv : Invite.InviteState π) (inviteeId pk : String) (rev : Nat)
    (server : Sync.VaultState) (granted : List Sync.VaultState) :
    Invite.verify deriveProof
      (Invite.acceptInvite deriveProof inv inv.secret inviteeId) = true ∧
    (Invite.confirmInvite server granted
      (Invite.acceptInvite deriveProof inv inv.secret inviteeId) pk rev).2.status =
      Invite.InviteStatus.confirmed ∧
    Sync.isMember (Invite.confirmInvite server granted
      (Invite.acceptInvite deriveProof inv inv.secret inviteeId) pk rev).1.1
      inviteeId = true ∧
    (∀ g ∈ (Invite.confirmInvite server granted
        (Invite.acceptInvite deriveProof inv inv.secret inviteeId) pk rev).1.2,
      Sync.isMember g inviteeId = true) ∧
    (∀ id, (Sync.syncClient (Invite.confirmInvite server granted
        (Invite.acceptInvite deriveProof inv inv.secret inviteeId) pk rev).1.1
        Sync.emptyVault).items id =
      (Invite.confirmInvite server granted
        (Invite.acceptInvite deriveProof inv inv.secret inviteeId) pk rev).1.1.items id) ∧
    Sync.isMember (Sync.syncClient (Invite.confirmInvite server granted
      (Invite.acceptInvite deriveProof inv inv.secret inviteeId) pk rev).1.1
      Sync.emptyVault) inviteeId = true ∧
    (∀ g ∈ (Invite.confirmInvite server granted
        (Invite.acceptInvite deriveProof inv inv.secret inviteeId) pk rev).1.2,
      Sync.isMember (Sync.syncClient g Sync.emptyVault) inviteeId = true) := by
  refine ⟨?_, rfl, ?_, ?_, ?_, ?_, ?_⟩
  · show decide (deriveProof inv.secret inviteeId = deriveProof inv.secret inviteeId) = true
    simp
  · exact isMember_addMember server inviteeId ⟨pk, Sync.Role.member⟩ rev
  · intro g hg
    rcases List.mem_map.mp hg with ⟨g0, _, hg0⟩
    subst hg0
    exact isMember_addMember g0 inviteeId ⟨pk, Sync.Role.member⟩ rev
  · intro id
    exact syncClient_emptyVault_items _ id
  · rw [isMember_syncClient_emptyVault]
    exact isMember_addMember server inviteeId ⟨pk, Sync.Role.member⟩ rev
  · intro g hg
    rcases List.mem_map.mp hg with ⟨g0, _, hg0⟩
    subst hg0
    rw [isMember_syncClient_emptyVault]
    exact isMember_addMember g0 inviteeId ⟨pk, Sync.Role.member⟩ rev

/-- Witness for the C6 theorem: confirming an accepted invite with one
concrete granted sub-vault makes the invitee a member of that sub-vault on
their freshly synced replica. -/
theorem accept_confirm_invite_membership_witness :
    Sync.isMember (Sync.syncClient
      (Sync.addMember Sync.twoItemVault "acct2" ⟨"pk2", Sync.Role.member⟩ 3)
      Sync.emptyVault) "acct2" = true := by
  exact (accept_confirm_invite_membership (fun (s m : String) => (s, m))
    (Invite.createInvite "inv1" "v1" "max@mustermann.com" "topsecret")
    "acct2" "pk2" 3 Sync.emptyVault [Sync.twoItemVault]).2.2.2.2.2.2
    (Sync.addMember Sync.twoItemVault "acct2" ⟨"pk2", Sync.Role.member⟩ 3)
    (List.Mem.head _)

mutual

/-- Removal rewrites every vault of the hierarchy to its member list with
the removed account filtered out. -/
theorem vaultsOf_removeTree (aid : String) (t : Hier.VTree) :
    Hier.vaultsOfTree (Hier.removeMemberTree aid t) =
      (Hier.vaultsOfTree t).map
        (fun d => ⟨d.id, d.members.filter (fun m => m ≠ aid)⟩) := by
  cases t with
  | node d cs =>
      simp [Hier.removeMemberTree, Hier.vaultsOfTree, vaultsOf_removeForest aid cs]

/-- Removal rewrites every vault of a forest to its member list with the
removed account filtered out. -/
theorem vaultsOf_removeForest (aid : String) (f : Hier.VForest) :
    Hier.vaultsOfForest (Hier.removeMemberForest aid f) =
      (Hier.vaultsOfForest f).map
        (fun d => ⟨d.id, d.members.filter (fun m => m ≠ aid)⟩) := by
  cases f with
  | nil => rfl
  | cons t ts =>
      simp [Hier.removeMemberForest, Hier.vaultsOfForest, vaultsOf_removeTree aid t,
        vaultsOf_removeForest aid ts]

end

/-- C4: removing a member from the root of a vault hierarchy strips them
from the root and from every sub-vault reachable through the trust chain;
consequently, after the removed member's replica next synchronizes, none
of the affected vaults remains in its visible vault list — appended to any
unaffected vaults, the visible list is exactly that of the unaffected
vaults. -/
theorem cascade_removal_hides_vaults (aid : String) (t : Hier.VTree)
    (others : List Hier.VaultData) :
    (∀ v ∈ Hier.vaultsOfTree (Hier.removeMemberTree aid t), aid ∉ v.members) ∧
    Hier.visibleVaults (Hier.vaultsOfTree (Hier.removeMemberTree aid t)) aid = [] ∧
    Hier.visibleVaults (others ++ Hier.vaultsOfTree (Hier.removeMemberTree aid t)) aid =
      Hier.visibleVaults others aid := by
  have hmem : ∀ v ∈ Hier.vaultsOfTree (Hier.removeMemberTree aid t), aid ∉ v.members := by
    intro v hv
    rw [vaultsOf_removeTree] at hv
    rcases List.mem_map.mp hv with ⟨d, _, hd⟩
    subst hd
    intro hin
    rcases List.mem_filter.mp hin with ⟨_, hp⟩
    simp at hp
  have hnil : Hier.visibleVaults (Hier.vaultsOfTree (Hier.removeMemberTree aid t)) aid = [] := by
    unfold Hier.visibleVaults
    rw [List.filter_eq_nil_iff]
    intro v hv
    simpa using hmem v hv
  refine ⟨hmem, hnil, ?_⟩
  unfold Hier.visibleVaults
  rw [List.filter_append]
  unfold Hier.visibleVaults at hnil
  rw [hnil, List.append_nil]

/-- Witness for the C4 theorem on a concrete two-level hierarchy: after
removing account b from the root, b appears in no vault of the hierarchy
and the hierarchy contributes nothing to b's visible vault list. -/
theorem cascade_removal_hides_vaults_witness :
    ("b" : String) ∉ (Hier.VaultData.mk "v1" ["a"]).members ∧
    Hier.visibleVaults (Hier.vaultsOfTree (Hier.removeMemberTree "b"
      (Hier.VTree.node ⟨"v1", ["a", "b"]⟩
        (Hier.VForest.cons (Hier.VTree.node ⟨"v2", ["b"]⟩ Hier.VForest.nil)
          Hier.VForest.nil)))) "b" = [] := by
  have h := cascade_removal_hides_vaults "b"
    (Hier.VTree.node ⟨"v1", ["a", "b"]⟩
      (Hier.VForest.cons (Hier.VTree.node ⟨"v2", ["b"]⟩ Hier.VForest.nil)
        Hier.VForest.nil)) []
  exact ⟨h.1 ⟨"v1", ["a"]⟩ (by decide), h.2.1⟩

/-- C7: logout discards the account and the session, and looking up any
vault associated with the logged-out account in the local storage
afterwards fails with NOT_FOUND instead of returning a stale replica. -/
theorem logout_reports_not_found (app : Session.AppState) (a : Session.Account)
    (vid : String) (hacc : app.account = some a) (hv : vid ∈ a.vaults) :
    (Session.logout app).account = none ∧
    (Session.logout app).session = none ∧
    Session.storageGet (Session.logout app) vid =
      Except.error Import.ErrorCode.NOT_FOUND := by
  refine ⟨rfl, rfl, ?_⟩
  unfold Session.storageGet Session.logout
  simp only [hacc]
  cases hf : List.find? (fun p => decide (p.1 = vid))
      (List.filter (fun p => decide (p.1 ∉ a.vaults)) app.storage) with
  | none => rfl
  | some q =>
      exfalso
      have hpv := List.find?_some hf
      have hpl := List.mem_of_find?_eq_some hf
      rcases List.mem_filter.mp hpl with ⟨_, hnd⟩
      simp at hpv hnd
      exact hnd (hpv ▸ hv)

/-- Witness for the C7 theorem on a concrete app holding one vault replica:
after logout the lookup reports NOT_FOUND. -/
theorem logout_reports_not_found_witness :
    Session.storageGet (Session.logout
      ⟨some ⟨"a@b.c", "A", "pw", "priv", ("k", "priv"), ["v1"]⟩, some "sess", false,
        "v1", some ⟨"v1", ["item1"]⟩, [("v1", ("k", ⟨"v1", ["item1"]⟩))]⟩) "v1" =
      Except.error Import.ErrorCode.NOT_FOUND := by
  exact (logout_reports_not_found
    ⟨some ⟨"a@b.c", "A", "pw", "priv", ("k", "priv"), ["v1"]⟩, some "sess", false,
      "v1", some ⟨"v1", ["item1"]⟩, [("v1", ("k", ⟨"v1", ["item1"]⟩))]⟩
    ⟨"a@b.c", "A", "pw", "priv", ("k", "priv"), ["v1"]⟩ "v1" rfl (by decide)).2.2

/-- C8: locking leaves the app in the Locked state with the cached account
password and private key blanked and the main vault inaccessible (no items
visible); unlocking with the correct password restores the private key
recovered from its encrypted form and the main vault replica from storage,
making the previously created items visible again. -/
theorem lock_unlock_restores_access (deriveKey : String → String)
    (app : Session.AppState) (a : Session.Account) (v : Session.StoredVault)
    (hacc : app.account = some a)
    (hkey : a.encryptedPrivateKey.1 = deriveKey a.password)
    (hpk : a.encryptedPrivateKey.2 = a.privateKey)
    (hstore : app.storage.find? (fun p => p.1 = app.mainVaultId) =
      some (app.mainVaultId, (deriveKey a.password, v))) :
    (Session.lock app).locked = true ∧
    (Session.lock app).account = some { a with password := "", privateKey := "" } ∧
    (Session.lock app).mainVault = none ∧
    Session.visibleItems (Session.lock app) = [] ∧
    Session.unlock deriveKey (Session.lock app) a.password =
      Except.ok { app with locked := false, account := some a, mainVault := some v } ∧
    Session.visibleItems
      { app with locked := false, account := some a, mainVault := some v } = v.items := by
  obtain ⟨em, nm, pw, pk, epk, vs⟩ := a
  obtain ⟨k1, k2⟩ := epk
  simp only at hkey hpk
  subst hkey
  subst hpk
  refine ⟨rfl, ?_, rfl, rfl, ?_, rfl⟩
  · unfold Session.lock
    rw [hacc]
    rfl
  · unfold Session.unlock Session.lock
    rw [hacc]
    simp only [Option.map_some', if_true]
    rw [hstore]
    simp

/-- Witness for the C8 theorem on a concrete unlocked app: after lock and a
correct-password unlock, the single stored item is visible again. -/
theorem lock_unlock_restores_access_witness :
    Session.visibleItems (Session.lock
      ⟨some ⟨"a@b.c", "A", "pw", "priv", ("key-pw", "priv"), ["v1"]⟩, some "sess", false,
        "v1", some ⟨"v1", ["item1"]⟩, [("v1", ("key-pw", ⟨"v1", ["item1"]⟩))]⟩) = [] ∧
    Session.unlock (fun p => "key-" ++ p) (Session.lock
      ⟨some ⟨"a@b.c", "A", "pw", "priv", ("key-pw", "priv"), ["v1"]⟩, some "sess", false,
        "v1", some ⟨"v1", ["item1"]⟩, [("v1", ("key-pw", ⟨"v1", ["item1"]⟩))]⟩) "pw" =
      Except.ok
        ⟨some ⟨"a@b.c", "A", "pw", "priv", ("key-pw", "priv"), ["v1"]⟩, some "sess", false,
          "v1", some ⟨"v1", ["item1"]⟩, [("v1", ("key-pw", ⟨"v1", ["item1"]⟩))]⟩ := by
  have h := lock_unlock_restores_access (fun p => "key-" ++ p)
    ⟨some ⟨"a@b.c", "A", "pw", "priv", ("key-pw", "priv"), ["v1"]⟩, some "sess", false,
      "v1", some ⟨"v1", ["item1"]⟩, [("v1", ("key-pw", ⟨"v1", ["item1"]⟩))]⟩
    ⟨"a@b.c", "A", "pw", "priv", ("key-pw", "priv"), ["v1"]⟩ ⟨"v1", ["item1"]⟩
    rfl (by decide) rfl (by decide)
  exact ⟨h.2.2.2.1, h.2.2.2.2.1⟩
